import Mathlib

/-!
Shallow embedding of `src/dirac_webapp_packaging/__init__.py` — the
`build_extjs_sources` setuptools command.  The embedding covers plugin
static-resource discovery (`_bind_mounts`), package-name resolution
(`_pkg_name`, with its attribute-based memoisation), backend selection
and command assembly (`_cmd`), the two backend argument synthesizers
(`_docker_args`, `_singularity_args`), and the `run` entry point.

Conventions of the embedding:
* Python exceptions become `Except BuildError`; the payload of each
  `BuildError` constructor is exactly what the corresponding `raise`
  carries in the source.
* Host-visible side effects (probing executables with `shutil.which`,
  `mkdir`, creating the singularity staging `TemporaryDirectory`,
  removing it, spawning the child process) are recorded in an explicit
  `Effect` trace.  The source never removes the staging directory
  (`tempfile.TemporaryDirectory.__enter__` is called but `__exit__` /
  `cleanup` never is), so no code path emits `Effect.tmpdirRemove`.
* A generator that raises mid-iteration is modelled as an `Except`
  value over the fully materialised list, matching how both argument
  synthesizers consume `_bind_mounts` to completion inside a single
  property access.
* Strings are Lean `String`s; `os.getuid()` / `os.getgid()` are `Nat`s;
  a child exit status (`subprocess` return code) is an `Int`.
-/

namespace DiracWebappPackaging

/-- Results of the embedded operations (`Except` values) are compared on
concrete inputs throughout; equality on them is decidable. -/
instance {ε α : Type} [DecidableEq ε] [DecidableEq α] : DecidableEq (Except ε α)
  | .error a, .error b =>
    match decEq a b with
    | isTrue h => isTrue (h ▸ rfl)
    | isFalse h => isFalse (fun hc => h (Except.error.inj hc))
  | .error _, .ok _ => isFalse (fun hc => Except.noConfusion hc)
  | .ok _, .error _ => isFalse (fun hc => Except.noConfusion hc)
  | .ok a, .ok b =>
    match decEq a b with
    | isTrue h => isTrue (h ▸ rfl)
    | isFalse h => isFalse (fun hc => h (Except.ok.inj hc))

/-- The `_docker_image` class attribute. -/
def dockerImage : String := "diracgrid/dirac-distribution:latest"

/-- The `_available_exes` class attribute: the fixed backend preference order. -/
def availableExes : List String := ["docker", "singularity"]

/-- The fixed compiler entrypoint baked into the image. -/
def compileEntrypoint : String := "/dirac-webapp-compile.py"

/-- The environment variable that makes `run` skip the build step. -/
def skipFlag : String := "DIRAC_WEBAPP_NO_COMPILE"

/-- One `dirac` entry point as `_bind_mounts` consumes it:
`module` is `entrypoint.module`, `modulePath` is
`Path(importlib.util.find_spec(entrypoint.module).origin).parent`, and
`staticDirs` is `entrypoint.load()().get("web_resources", {}).get("static")`
(`[]` stands for both a missing key and an empty list — both are falsy
in the `if static_dirs:` test). -/
structure Contribution where
  module : String
  modulePath : String
  staticDirs : List String
deriving DecidableEq, Repr

/-- The errors the command can raise.  In the source all four are
`NotImplementedError` / `subprocess.CalledProcessError`; the spec's
taxonomy names them `ConfigurationError`, `NoBackendAvailableError`,
and `BuildStepFailedError`.  Payloads mirror the source exactly:
`raise NotImplementedError(static_dirs)` carries only the list of
declared static directories. -/
inductive BuildError
  | configError (staticDirs : List String)
  | noBackend (msg : String)
  | pkgNameError (packages : List String)
  | buildStepFailed (code : Int)
deriving DecidableEq, Repr

/-- Host-visible side effects, in the order the code performs them. -/
inductive Effect
  | probe (exe : String)
  | mkdir (path : String)
  | tmpdirCreate
  | tmpdirRemove
  | spawn (cmd : List String)
deriving DecidableEq, Repr

/-- A logical bind mount: container path, host path, read-only flag. -/
structure MountBinding where
  containerPath : String
  hostPath : String
  readOnly : Bool
deriving DecidableEq, Repr

/-- Discovery, `_bind_mounts` (lines 79–95), together with the host-side `mkdir`
it performs.  For each entry point that is not the current package and
declares a non-empty static list, the generator yields TWO pairs: first
`(entrypoint.module, module_path)`, then — after checking
`len(static_dirs) == 1` and creating `module_path/WebApp/static` on the
host — `(f"{entrypoint.module}/WebApp/static", static_dirs[0])`.
A static list of length ≠ 1 raises `NotImplementedError(static_dirs)`.
An error mid-generator aborts the whole consumption, so the model
returns no pairs (and no trace) in that case. -/
def bindMountsE (pkg : String) :
    List Contribution → Except BuildError (List (String × String) × List Effect)
  | [] => .ok ([], [])
  | e :: rest =>
    if e.module = pkg then
      bindMountsE pkg rest
    else if e.staticDirs = [] then
      bindMountsE pkg rest
    else if e.staticDirs.length = 1 then
      match bindMountsE pkg rest with
      | .error err => .error err
      | .ok (ms, fx) =>
        .ok ((e.module, e.modulePath)
               :: (e.module ++ "/WebApp/static", e.staticDirs.headD "") :: ms,
             .mkdir (e.modulePath ++ "/WebApp/static") :: fx)
    else
      .error (.configError e.staticDirs)

/-- The pairs `_bind_mounts` yields, without the effect trace. -/
def bindMounts (pkg : String) (entries : List Contribution) :
    Except BuildError (List (String × String)) :=
  (bindMountsE pkg entries).map Prod.fst

/-- The logical mount plan both synthesizers realise: every pair
yielded by `_bind_mounts` is mounted read-only at `/opt/<name>`
(the `:ro` suffix in both f-strings), and the package under build is
mounted read-write at `/opt/<pkg>` from `<path>/src/<pkg>`.  Container
paths are kept relative to the `/opt` base, as the spec writes them. -/
def mountPlan (pkg path : String) (entries : List Contribution) :
    Except BuildError (List MountBinding) :=
  match bindMounts pkg entries with
  | .error err => .error err
  | .ok ms =>
    .ok (ms.map (fun m => ⟨m.1, m.2, true⟩) ++ [⟨pkg, path ++ "/src/" ++ pkg, false⟩])

/-- One docker bind-mount argument: `f"-v={path}:/opt/{name}:ro"`. -/
def dockerMountArg (nm p : String) : String :=
  "-v=" ++ (p ++ ":/opt/" ++ nm ++ ":ro")

/-- One singularity bind-mount argument: `f"--bind={path}:/opt/{name}:ro"`. -/
def singularityMountArg (nm p : String) : String :=
  "--bind=" ++ (p ++ ":/opt/" ++ nm ++ ":ro")

/-- The shared `host:container` body of the package's own bind mount:
`f"{self._path}/src/{self._pkg_name}:/opt/{self._pkg_name}"`. -/
def pkgMountBody (pkg path : String) : String :=
  path ++ "/src/" ++ pkg ++ ":/opt/" ++ pkg

/-- Synthesizer `_docker_args` (lines 97–112): argument vector plus the host-side
effects of consuming `_bind_mounts`.  `uid`/`gid` are `os.getuid()` and
`os.getgid()`. -/
def dockerArgsE (pkg path : String) (uid gid : Nat) (entries : List Contribution) :
    Except BuildError (List String × List Effect) :=
  match bindMountsE pkg entries with
  | .error err => .error err
  | .ok (ms, fx) =>
    .ok (["run", "--rm"]
           ++ ms.map (fun m => dockerMountArg m.1 m.2)
           ++ ["-v=" ++ pkgMountBody pkg path,
               "-w=/tmp",
               "-u=" ++ (toString uid ++ ":" ++ toString gid),
               dockerImage,
               compileEntrypoint],
         fx)

/-- Synthesizer `_singularity_args` (lines 114–140): argument vector plus effects.
`tmpdir` is the name of the `tempfile.TemporaryDirectory` the property
creates (and enters, but never exits).  The trace records the staging
directory creation, then the host-side `mkdir`s of `_bind_mounts`
followed by the `(tmpdir / name).mkdir(parents=True, exist_ok=True)`
placeholder creations (interleaved in the source, concatenated here),
then `(tmpdir / pkg).mkdir()`. -/
def singularityArgsE (pkg path tmpdir : String) (entries : List Contribution) :
    Except BuildError (List String × List Effect) :=
  match bindMountsE pkg entries with
  | .error err => .error err
  | .ok (ms, fx) =>
    .ok (["run", "--writable", "--containall",
          "--bind=" ++ (tmpdir ++ ":/opt")]
           ++ ms.map (fun m => singularityMountArg m.1 m.2)
           ++ ["--bind=" ++ pkgMountBody pkg path,
               "docker://" ++ dockerImage,
               compileEntrypoint],
         .tmpdirCreate
           :: (fx ++ ms.map (fun m => .mkdir (tmpdir ++ "/" ++ m.1))
                 ++ [.mkdir (tmpdir ++ "/" ++ pkg)]))

/-- Argument-vector view of `_docker_args`. -/
def dockerArgs (pkg path : String) (uid gid : Nat) (entries : List Contribution) :
    Except BuildError (List String) :=
  (dockerArgsE pkg path uid gid entries).map Prod.fst

/-- Argument-vector view of `_singularity_args`. -/
def singularityArgs (pkg path tmpdir : String) (entries : List Contribution) :
    Except BuildError (List String) :=
  (singularityArgsE pkg path tmpdir entries).map Prod.fst

/-- The `for self._exe in self._available_exes: ... break / else raise`
loop of `_cmd`, over an abstract `shutil.which`. -/
def selectLoop (which : String → Option String) :
    List String → Option (String × String)
  | [] => none
  | e :: rest =>
    match which e with
    | some full => some (e, full)
    | none => selectLoop which rest

/-- Backend selection (`_cmd`, lines 66–72): the first executable of
`_available_exes` that `shutil.which` resolves, else
`NotImplementedError("Unable to find a suitable command")`. -/
def selectBackend (which : String → Option String) :
    Except BuildError (String × String) :=
  match selectLoop which availableExes with
  | some r => .ok r
  | none => .error (.noBackend "Unable to find a suitable command")

/-- The `shutil.which` probes the selection loop performs, in order:
every candidate up to and including the first hit. -/
def probeLoop (which : String → Option String) : List String → List Effect
  | [] => []
  | e :: rest =>
    .probe e ::
      (match which e with
       | some _ => []
       | none => probeLoop which rest)

/-- Candidate list of `_pkg_name`: the distribution's packages with the
dotted (non-top-level) ones filtered out (`"." not in x`). -/
def topLevel (packages : List String) : List String :=
  packages.filter (fun x => !(x.data.contains '.'))

/-- Resolution `_pkg_name` (lines 52–59), uncached: exactly one top-level package
is required; otherwise
`NotImplementedError(f"Failed to find the package name: {packages}")`
is raised with the filtered candidate list. -/
def pkgName (packages : List String) : Except BuildError String :=
  let tops := topLevel packages
  if tops.length = 1 then .ok (tops.headD "") else .error (.pkgNameError tops)

/-- The key under which `self.__name = packages[0]` actually stores
inside class `build_extjs_sources`: Python name-mangles the attribute
access to `_build_extjs_sources__name`. -/
def mangledNameAttr : String := "_build_extjs_sources__name"

/-- Memoisation of `_pkg_name` through instance attributes, with
Python's name mangling modelled faithfully: the guard
`hasattr(self, "__name")` looks up the literal key `"__name"` (the
string argument is not mangled), while the assignment
`self.__name = packages[0]` stores — and the final `return self.__name`
reads — the mangled key `_build_extjs_sources__name`.  `attrs` is the
instance's attribute dictionary (most recent binding first; `lookup`
gives dict semantics).  Because no statement ever stores the key
`"__name"`, the guard's cache-hit branch is unreachable and the name is
recomputed from the current `packages` on every access. -/
def pkgNameCached (attrs : List (String × String)) (packages : List String) :
    Except BuildError (String × List (String × String)) :=
  if (List.lookup "__name" attrs).isSome then
    .ok ((List.lookup mangledNameAttr attrs).getD "", attrs)
  else
    match pkgName packages with
    | .ok n => .ok ((List.lookup mangledNameAttr ((mangledNameAttr, n) :: attrs)).getD "",
        (mangledNameAttr, n) :: attrs)
    | .error err => .error err

/-- Dispatch of `getattr(self, f"_{self._exe}_args")` for the selected
backend. -/
def backendArgsE (exe pkg path tmpdir : String) (uid gid : Nat)
    (entries : List Contribution) : Except BuildError (List String × List Effect) :=
  if exe = "docker" then dockerArgsE pkg path uid gid entries
  else singularityArgsE pkg path tmpdir entries

/-- Outcome of `run`: skipped via the environment flag, or a child
process that exited 0. -/
inductive RunOutcome
  | skipped
  | success
deriving DecidableEq, Repr

/-- The command's `run` (lines 43–50) together with `_cmd` (lines 66–77): if the skip
flag is present in the environment, return immediately with no effects;
otherwise probe for a backend, resolve the package name, synthesize the
backend's arguments, append the common trailing compiler flags, and
spawn `[full_exe] + args + ["-D=/opt", f"-n={pkg}", "--py3-style"]`.
`subprocess.check_call` raises `CalledProcessError` exactly when the
child's exit status is non-zero.  `env` is the set of defined
environment variable names; `childExit` gives the child's exit status
for a spawned command. -/
def run (env : List String) (which : String → Option String)
    (packages : List String) (path tmpdir : String) (uid gid : Nat)
    (entries : List Contribution) (childExit : List String → Int) :
    Except BuildError RunOutcome × List Effect :=
  if skipFlag ∈ env then
    (.ok .skipped, [])
  else
    match selectBackend which with
    | .error err => (.error err, probeLoop which availableExes)
    | .ok (exe, fullExe) =>
      match pkgName packages with
      | .error err => (.error err, probeLoop which availableExes)
      | .ok pkg =>
        match backendArgsE exe pkg path tmpdir uid gid entries with
        | .error err => (.error err, probeLoop which availableExes)
        | .ok (args, fx) =>
          let cmd := fullExe :: (args ++ ["-D=/opt", "-n=" ++ pkg, "--py3-style"])
          let trace := probeLoop which availableExes ++ fx ++ [.spawn cmd]
          if childExit cmd = 0 then (.ok .success, trace)
          else (.error (.buildStepFailed (childExit cmd)), trace)

/-! ### Extracting the logical bind mounts from an argument vector

`logicalBinds` reads the synthesized argument vectors back: an argument
of the form `-v=HOST:CONT[:ro]` (docker) or `--bind=HOST:CONT[:ro]`
(singularity) denotes one logical bind mount `(HOST, CONT, read-only)`.
This is spec-side vocabulary ("the set of logical bind mounts of a
command"), used to compare the two backends. -/

/-- Split a character list at every `':'`. -/
def splitColon : List Char → List Char → List (List Char)
  | [], acc => [acc.reverse]
  | c :: rest, acc =>
    if c = ':' then acc.reverse :: splitColon rest []
    else splitColon rest (c :: acc)

/-- Parse the `HOST:CONT[:ro]` body of a bind-mount argument. -/
def parseBindBody (body : List Char) : Option (String × String × Bool) :=
  match splitColon body [] with
  | [h, c] => some (⟨h⟩, ⟨c⟩, false)
  | [h, c, m] => if m = ['r', 'o'] then some (⟨h⟩, ⟨c⟩, true) else none
  | _ => none

/-- Recognise a bind-mount argument of either backend. -/
def bindOfArg (arg : String) : Option (String × String × Bool) :=
  match arg.data with
  | '-' :: 'v' :: '=' :: body => parseBindBody body
  | '-' :: '-' :: 'b' :: 'i' :: 'n' :: 'd' :: '=' :: body => parseBindBody body
  | _ => none

/-- All logical bind mounts of an argument vector. -/
def logicalBinds (args : List String) : List (String × String × Bool) :=
  args.filterMap bindOfArg

/-- Spec-side shape of docker's identity-mapping flag
`f"-u={os.getuid()}:{os.getgid()}"`. -/
def isUserFlag (a : String) : Bool :=
  match a.data with
  | '-' :: 'u' :: '=' :: _ => true
  | _ => false

/-! ## Theorems -/

/-- A discovery error propagates through the mount-plan construction. -/
theorem mountPlan_error_of_bindMounts (pkg path : String) (entries : List Contribution)
    (err : BuildError) (h : bindMounts pkg entries = .error err) :
    mountPlan pkg path entries = .error err := by
  simp [mountPlan, h]

/-- Discovery `bindMounts` fails exactly when `bindMountsE` does. -/
theorem bindMounts_error_iff (pkg : String) (entries : List Contribution)
    (err : BuildError) :
    bindMounts pkg entries = .error err ↔ bindMountsE pkg entries = .error err := by
  cases h : bindMountsE pkg entries <;> simp [bindMounts, h, Except.map]

/-- C6 (code evaluation at the failing input): a successful — and
likewise a failing — singularity run creates the staging temporary
directory and never removes it: `run`'s effect trace contains
`tmpdirCreate` but no `tmpdirRemove`, so the directory still exists
after the synthesize-and-run sequence completes.  In the source,
`_singularity_args` stores `tempfile.TemporaryDirectory()` on `self`
and calls `__enter__` with no matching `__exit__`/`cleanup` on any
path. -/
theorem C6_theorem :
    ((run [] (fun e => if e = "singularity" then some "/usr/bin/singularity" else none)
        ["mypkg"] "/repo" "/tmp/stage" 1000 1000 [] (fun _ => 0)).1 = .ok .success ∧
      Effect.tmpdirCreate ∈
        (run [] (fun e => if e = "singularity" then some "/usr/bin/singularity" else none)
          ["mypkg"] "/repo" "/tmp/stage" 1000 1000 [] (fun _ => 0)).2 ∧
      Effect.tmpdirRemove ∉
        (run [] (fun e => if e = "singularity" then some "/usr/bin/singularity" else none)
          ["mypkg"] "/repo" "/tmp/stage" 1000 1000 [] (fun _ => 0)).2) ∧
    ((run [] (fun e => if e = "singularity" then some "/usr/bin/singularity" else none)
        ["mypkg"] "/repo" "/tmp/stage" 1000 1000 [] (fun _ => 1)).1 =
          .error (.buildStepFailed 1) ∧
      Effect.tmpdirCreate ∈
        (run [] (fun e => if e = "singularity" then some "/usr/bin/singularity" else none)
          ["mypkg"] "/repo" "/tmp/stage" 1000 1000 [] (fun _ => 1)).2 ∧
      Effect.tmpdirRemove ∉
        (run [] (fun e => if e = "singularity" then some "/usr/bin/singularity" else none)
          ["mypkg"] "/repo" "/tmp/stage" 1000 1000 [] (fun _ => 1)).2) := by
  decide

/-- C3 counterexample: the error payload of `_bind_mounts` is
`NotImplementedError(static_dirs)` — only the list of declared
directories.  Two different offending plugins with the same static
list raise byte-for-byte identical errors, so the payload cannot name
the offending plugin. -/
theorem C3_counterexample :
    bindMounts "mypkg" [⟨"pluginA", "/plugins/pluginA", ["/s1", "/s2"]⟩] =
      .error (.configError ["/s1", "/s2"]) ∧
    bindMounts "mypkg" [⟨"pluginB", "/plugins/pluginB", ["/s1", "/s2"]⟩] =
      .error (.configError ["/s1", "/s2"]) ∧
    "pluginA" ∉ ["/s1", "/s2"] ∧ "pluginB" ∉ ["/s1", "/s2"] := by
  decide

/-- C3 (amended): a contribution declaring two or more static
directories always makes discovery fail with a `ConfigurationError`
carrying the full list some offending plugin declared (but not the
plugin's name), and no mount plan is produced. -/
theorem C3_theorem (pkg : String) (entries : List Contribution) (e : Contribution)
    (he : e ∈ entries) (hm : e.module ≠ pkg) (hs : e.staticDirs ≠ [])
    (hlen : e.staticDirs.length ≠ 1) :
    ∃ off, off ∈ entries ∧ off.module ≠ pkg ∧ off.staticDirs ≠ [] ∧
      off.staticDirs.length ≠ 1 ∧
      bindMounts pkg entries = .error (.configError off.staticDirs) ∧
      ∀ path, mountPlan pkg path entries = .error (.configError off.staticDirs) := by
  induction entries with
  | nil => cases he
  | cons a rest ih =>
    by_cases hma : a.module = pkg
    · have hea : e ≠ a := fun hq => hm (hq ▸ hma)
      have he' : e ∈ rest := by
        cases List.mem_cons.mp he with
        | inl hq => exact absurd hq hea
        | inr hq => exact hq
      obtain ⟨off, hoff, h1, h2, h3, h4, _⟩ := ih he'
      have hstep : bindMounts pkg (a :: rest) = bindMounts pkg rest := by
        simp [bindMounts, bindMountsE, hma, Except.map]
      refine ⟨off, List.mem_cons_of_mem _ hoff, h1, h2, h3, hstep ▸ h4, ?_⟩
      intro path
      exact mountPlan_error_of_bindMounts _ _ _ _ (hstep ▸ h4)
    · by_cases hsa : a.staticDirs = []
      · have hea : e ≠ a := fun hq => hs (hq ▸ hsa)
        have he' : e ∈ rest := by
          cases List.mem_cons.mp he with
          | inl hq => exact absurd hq hea
          | inr hq => exact hq
        obtain ⟨off, hoff, h1, h2, h3, h4, _⟩ := ih he'
        have hstep : bindMounts pkg (a :: rest) = bindMounts pkg rest := by
          simp [bindMounts, bindMountsE, hma, hsa, Except.map]
        refine ⟨off, List.mem_cons_of_mem _ hoff, h1, h2, h3, hstep ▸ h4, ?_⟩
        intro path
        exact mountPlan_error_of_bindMounts _ _ _ _ (hstep ▸ h4)
      · by_cases hla : a.staticDirs.length = 1
        · have hea : e ≠ a := fun hq => hlen (hq ▸ hla)
          have he' : e ∈ rest := by
            cases List.mem_cons.mp he with
            | inl hq => exact absurd hq hea
            | inr hq => exact hq
          obtain ⟨off, hoff, h1, h2, h3, h4, _⟩ := ih he'
          have h4' : bindMountsE pkg rest = .error (.configError off.staticDirs) :=
            (bindMounts_error_iff _ _ _).mp h4
          have hstep : bindMounts pkg (a :: rest) =
              .error (.configError off.staticDirs) := by
            simp [bindMounts, bindMountsE, hma, hsa, hla, h4', Except.map]
          refine ⟨off, List.mem_cons_of_mem _ hoff, h1, h2, h3, hstep, ?_⟩
          intro path
          exact mountPlan_error_of_bindMounts _ _ _ _ hstep
        · have hstep : bindMounts pkg (a :: rest) =
              .error (.configError a.staticDirs) := by
            simp [bindMounts, bindMountsE, hma, hsa, hla, Except.map]
          refine ⟨a, List.mem_cons_self _ _, hma, hsa, hla, hstep, ?_⟩
          intro path
          exact mountPlan_error_of_bindMounts _ _ _ _ hstep

/-- C3 witness: a single plugin with three static directories. -/
theorem C3_witness :
    bindMounts "mypkg" [⟨"pluginZ", "/pz", ["/t1", "/t2", "/t3"]⟩] =
      .error (.configError ["/t1", "/t2", "/t3"]) := by
  obtain ⟨off, hoff, _, _, _, h4, _⟩ :=
    C3_theorem "mypkg" [⟨"pluginZ", "/pz", ["/t1", "/t2", "/t3"]⟩]
      ⟨"pluginZ", "/pz", ["/t1", "/t2", "/t3"]⟩
      (List.mem_singleton.mpr rfl) (by decide) (by decide) (by decide)
  have hq : off = (⟨"pluginZ", "/pz", ["/t1", "/t2", "/t3"]⟩ : Contribution) := by
    cases hoff with
    | head => rfl
    | tail _ hq => cases hq
  rw [hq] at h4
  exact h4

/-- A slash-free string never equals anything extended with the
`/WebApp/static` suffix. -/
theorem slash_notin_append (a b : String) (ha : '/' ∉ a.data) :
    a ≠ b ++ "/WebApp/static" := by
  intro hq
  apply ha
  rw [hq, String.data_append]
  exact List.mem_append.mpr (Or.inr (by decide))

/-- No string equals itself extended with the `/WebApp/static` suffix. -/
theorem append_sfx_ne_self (a : String) : a ≠ a ++ "/WebApp/static" := by
  intro hq
  have hlen := congrArg (fun s => s.data.length) hq
  simp only [String.data_append, List.length_append] at hlen
  have h14 : ("/WebApp/static" : String).data.length = 14 := by decide
  rw [h14] at hlen
  omega

/-- Appending the fixed `/WebApp/static` suffix is injective. -/
theorem append_sfx_inj (a b : String)
    (h : a ++ "/WebApp/static" = b ++ "/WebApp/static") : a = b := by
  have hd := congrArg String.data h
  rw [String.data_append, String.data_append] at hd
  exact String.ext (List.append_cancel_right hd)

/-- Membership characterisation of the pairs `_bind_mounts` yields: a
pair is yielded exactly when some kept contribution produces it, either
as the bare module binding or as the `/WebApp/static` binding. -/
theorem bindMountsE_ok_mem (pkg : String) :
    ∀ (entries : List Contribution) (ms : List (String × String)) (fx : List Effect),
      bindMountsE pkg entries = .ok (ms, fx) →
      ∀ nm p, ((nm, p) ∈ ms ↔
        ∃ e, e ∈ entries ∧ e.module ≠ pkg ∧ e.staticDirs ≠ [] ∧
          ((nm = e.module ∧ p = e.modulePath) ∨
           (nm = e.module ++ "/WebApp/static" ∧ p = e.staticDirs.headD ""))) := by
  intro entries
  induction entries with
  | nil =>
    intro ms fx h nm p
    have hms : ms = [] := by
      simp only [bindMountsE, Except.ok.injEq, Prod.mk.injEq] at h
      exact h.1.symm
    subst hms
    simp
  | cons a rest ih =>
    intro ms fx h nm p
    by_cases hma : a.module = pkg
    · rw [show bindMountsE pkg (a :: rest) = bindMountsE pkg rest from by
        simp [bindMountsE, hma]] at h
      rw [ih ms fx h nm p]
      constructor
      · rintro ⟨e, he, h1, h2, h3⟩
        exact ⟨e, List.mem_cons_of_mem _ he, h1, h2, h3⟩
      · rintro ⟨e, he, h1, h2, h3⟩
        cases List.mem_cons.mp he with
        | inl hq =>
          subst hq
          exact absurd hma h1
        | inr hq => exact ⟨e, hq, h1, h2, h3⟩
    · by_cases hsa : a.staticDirs = []
      · rw [show bindMountsE pkg (a :: rest) = bindMountsE pkg rest from by
          simp [bindMountsE, hma, hsa]] at h
        rw [ih ms fx h nm p]
        constructor
        · rintro ⟨e, he, h1, h2, h3⟩
          exact ⟨e, List.mem_cons_of_mem _ he, h1, h2, h3⟩
        · rintro ⟨e, he, h1, h2, h3⟩
          cases List.mem_cons.mp he with
          | inl hq =>
            subst hq
            exact absurd hsa h2
          | inr hq => exact ⟨e, hq, h1, h2, h3⟩
      · by_cases hla : a.staticDirs.length = 1
        · cases hrest : bindMountsE pkg rest with
          | error err =>
            rw [show bindMountsE pkg (a :: rest) = .error err from by
              simp [bindMountsE, hma, hsa, hla, hrest]] at h
            exact absurd h (by simp)
          | ok pr =>
            obtain ⟨ms', fx'⟩ := pr
            rw [show bindMountsE pkg (a :: rest) = .ok ((a.module, a.modulePath) ::
                (a.module ++ "/WebApp/static", a.staticDirs.headD "") :: ms',
                .mkdir (a.modulePath ++ "/WebApp/static") :: fx') from by
              simp [bindMountsE, hma, hsa, hla, hrest]] at h
            have h' := Except.ok.inj h
            rw [Prod.ext_iff] at h'
            obtain ⟨h1, _⟩ := h'
            subst h1
            have hih := ih ms' fx' hrest nm p
            simp only [List.mem_cons]
            rw [hih]
            constructor
            · rintro (hq | hq | ⟨e, he, he1, he2, he3⟩)
              · rw [Prod.mk.injEq] at hq
                exact ⟨a, Or.inl rfl, hma, hsa, Or.inl hq⟩
              · rw [Prod.mk.injEq] at hq
                exact ⟨a, Or.inl rfl, hma, hsa, Or.inr hq⟩
              · exact ⟨e, Or.inr he, he1, he2, he3⟩
            · rintro ⟨e, he, he1, he2, he3⟩
              cases he with
              | inl hq =>
                subst hq
                cases he3 with
                | inl hq2 => exact Or.inl (by rw [Prod.mk.injEq]; exact hq2)
                | inr hq2 => exact Or.inr (Or.inl (by rw [Prod.mk.injEq]; exact hq2))
              | inr hq => exact Or.inr (Or.inr ⟨e, hq, he1, he2, he3⟩)
        · rw [show bindMountsE pkg (a :: rest) = .error (.configError a.staticDirs) from by
            simp [bindMountsE, hma, hsa, hla]] at h
          exact absurd h (by simp)

/-- Membership characterisation of the mount plan: it holds exactly the
package's read-write self-binding plus, per kept contribution, the two
read-only bindings the generator yields. -/
theorem mountPlan_ok_mem (pkg path : String) (entries : List Contribution)
    (plan : List MountBinding) (h : mountPlan pkg path entries = .ok plan)
    (b : MountBinding) :
    b ∈ plan ↔
      b = ⟨pkg, path ++ "/src/" ++ pkg, false⟩ ∨
      ∃ e, e ∈ entries ∧ e.module ≠ pkg ∧ e.staticDirs ≠ [] ∧
        (b = ⟨e.module, e.modulePath, true⟩ ∨
         b = ⟨e.module ++ "/WebApp/static", e.staticDirs.headD "", true⟩) := by
  cases hb : bindMountsE pkg entries with
  | error err => simp [mountPlan, bindMounts, hb, Except.map] at h
  | ok pr =>
    obtain ⟨ms, fx⟩ := pr
    have hplan : plan = ms.map (fun m => (⟨m.1, m.2, true⟩ : MountBinding)) ++
        [⟨pkg, path ++ "/src/" ++ pkg, false⟩] := by
      simp [mountPlan, bindMounts, hb, Except.map] at h
      exact h.symm
    subst hplan
    rw [List.mem_append]
    constructor
    · rintro (hmem | hmem)
      · obtain ⟨m, hm, hfm⟩ := List.mem_map.mp hmem
        have hmem2 := (bindMountsE_ok_mem pkg entries ms fx hb m.1 m.2).mp hm
        obtain ⟨e, he, h1, h2, h3⟩ := hmem2
        refine Or.inr ⟨e, he, h1, h2, ?_⟩
        cases h3 with
        | inl hq => exact Or.inl (by rw [← hfm, hq.1, hq.2])
        | inr hq => exact Or.inr (by rw [← hfm, hq.1, hq.2])
      · exact Or.inl (List.mem_singleton.mp hmem)
    · rintro (hq | ⟨e, he, h1, h2, h3⟩)
      · exact Or.inr (by simp [hq])
      · left
        refine List.mem_map.mpr ?_
        cases h3 with
        | inl hq =>
          exact ⟨(e.module, e.modulePath),
            (bindMountsE_ok_mem pkg entries ms fx hb e.module e.modulePath).mpr
              ⟨e, he, h1, h2, Or.inl ⟨rfl, rfl⟩⟩, by rw [hq]⟩
        | inr hq =>
          exact ⟨(e.module ++ "/WebApp/static", e.staticDirs.headD ""),
            (bindMountsE_ok_mem pkg entries ms fx hb
                (e.module ++ "/WebApp/static") (e.staticDirs.headD "")).mpr
              ⟨e, he, h1, h2, Or.inr ⟨rfl, rfl⟩⟩, by rw [hq]⟩

/-- C1 counterexample: for the single contribution
`{module: "pluginA", static: ["/host/a/static"]}` with package "mypkg",
the plan carries a THIRD binding — the plugin's whole module directory
at container path `pluginA` — so it is not made of one binding per
contribution plus the package binding only. -/
theorem C1_counterexample :
    mountPlan "mypkg" "/repo" [⟨"pluginA", "/plugins/pluginA", ["/host/a/static"]⟩] =
      .ok [⟨"pluginA", "/plugins/pluginA", true⟩,
           ⟨"pluginA/WebApp/static", "/host/a/static", true⟩,
           ⟨"mypkg", "/repo/src/mypkg", false⟩] ∧
    ([⟨"pluginA", "/plugins/pluginA", true⟩,
      ⟨"pluginA/WebApp/static", "/host/a/static", true⟩,
      ⟨"mypkg", "/repo/src/mypkg", false⟩] : List MountBinding).all
        (fun b => b.containerPath == "pluginA/WebApp/static" ||
                  b.containerPath == "mypkg") = false := by
  decide

/-- C1 (amended): the mount plan consists of exactly, per kept
contribution (module ≠ package, non-empty static list), TWO read-only
bindings — the plugin's module directory at `<plugin_module>` and its
declared static directory at `<plugin_module>/WebApp/static` — plus the
single read-write self-binding of the package at `<package_name>` from
`<host_source_root>/src/<package_name>`, and nothing else. -/
theorem C1_theorem (pkg path : String) (entries : List Contribution)
    (plan : List MountBinding) (hok : mountPlan pkg path entries = .ok plan)
    (b : MountBinding) :
    b ∈ plan ↔
      b = ⟨pkg, path ++ "/src/" ++ pkg, false⟩ ∨
      ∃ e, e ∈ entries ∧ e.module ≠ pkg ∧ e.staticDirs ≠ [] ∧
        (b = ⟨e.module, e.modulePath, true⟩ ∨
         b = ⟨e.module ++ "/WebApp/static", e.staticDirs.headD "", true⟩) :=
  mountPlan_ok_mem pkg path entries plan hok b

/-- C1 witness: the module binding of `pluginA` is in the concrete
plan. -/
theorem C1_witness :
    (⟨"pluginA", "/plugins/pluginA", true⟩ : MountBinding) ∈
      ([⟨"pluginA", "/plugins/pluginA", true⟩,
        ⟨"pluginA/WebApp/static", "/host/a/static", true⟩,
        ⟨"mypkg", "/repo/src/mypkg", false⟩] : List MountBinding) := by
  refine ( C1_theorem "mypkg" "/repo"
      [⟨"pluginA", "/plugins/pluginA", ["/host/a/static"]⟩] _ (by decide) _).mpr ?_
  exact Or.inr ⟨⟨"pluginA", "/plugins/pluginA", ["/host/a/static"]⟩,
    List.mem_singleton.mpr rfl, by decide, by decide, Or.inl rfl⟩

/-- Container paths of the yielded pairs plus the package's own path
are pairwise distinct, given distinct slash-free module names that
differ from the (slash-free) package name. -/
theorem bindMountsE_paths_nodup (pkg : String) :
    ∀ (entries : List Contribution) (ms : List (String × String)) (fx : List Effect),
      bindMountsE pkg entries = .ok (ms, fx) →
      (entries.map Contribution.module).Nodup →
      (∀ e ∈ entries, e.module ≠ pkg) →
      (∀ e ∈ entries, '/' ∉ e.module.data) →
      '/' ∉ pkg.data →
      (ms.map Prod.fst ++ [pkg]).Nodup := by
  intro entries
  induction entries with
  | nil =>
    intro ms fx h _ _ _ _
    have hms : ms = [] := by
      simp only [bindMountsE, Except.ok.injEq, Prod.mk.injEq] at h
      exact h.1.symm
    subst hms
    simp
  | cons a rest ih =>
    intro ms fx h hnd hne hsf hp
    have hma : a.module ≠ pkg := hne a (List.mem_cons_self _ _)
    have hnd3 : (a.module :: rest.map Contribution.module).Nodup := by
      rw [List.map_cons] at hnd
      exact hnd
    have hnd2 := List.nodup_cons.mp hnd3
    have hnd' : (rest.map Contribution.module).Nodup := hnd2.2
    have hmodnotin : a.module ∉ rest.map Contribution.module := hnd2.1
    have hne' : ∀ e ∈ rest, e.module ≠ pkg := fun e hq => hne e (List.mem_cons_of_mem _ hq)
    have hsf' : ∀ e ∈ rest, '/' ∉ e.module.data := fun e hq => hsf e (List.mem_cons_of_mem _ hq)
    have hsfa : '/' ∉ a.module.data := hsf a (List.mem_cons_self _ _)
    by_cases hsa : a.staticDirs = []
    · rw [show bindMountsE pkg (a :: rest) = bindMountsE pkg rest from by
        simp [bindMountsE, hma, hsa]] at h
      exact ih ms fx h hnd' hne' hsf' hp
    · by_cases hla : a.staticDirs.length = 1
      · cases hrest : bindMountsE pkg rest with
        | error err =>
          rw [show bindMountsE pkg (a :: rest) = .error err from by
            simp [bindMountsE, hma, hsa, hla, hrest]] at h
          exact absurd h (by simp)
        | ok pr =>
          obtain ⟨ms', fx'⟩ := pr
          rw [show bindMountsE pkg (a :: rest) = .ok ((a.module, a.modulePath) ::
              (a.module ++ "/WebApp/static", a.staticDirs.headD "") :: ms',
              .mkdir (a.modulePath ++ "/WebApp/static") :: fx') from by
            simp [bindMountsE, hma, hsa, hla, hrest]] at h
          have h' := Except.ok.inj h
          rw [Prod.ext_iff] at h'
          obtain ⟨h1, _⟩ := h'
          subst h1
          have ihok := ih ms' fx' hrest hnd' hne' hsf' hp
          have hmem := bindMountsE_ok_mem pkg rest ms' fx' hrest
          simp only [List.map_cons, List.cons_append]
          refine List.nodup_cons.mpr ⟨?_, List.nodup_cons.mpr ⟨?_, ihok⟩⟩
          · intro hin
            cases List.mem_cons.mp hin with
            | inl hq => exact append_sfx_ne_self a.module hq
            | inr hq =>
              cases List.mem_append.mp hq with
              | inl hq2 =>
                obtain ⟨m, hm, hfm⟩ := List.mem_map.mp hq2
                obtain ⟨e, he, h1e, h2e, h3e⟩ := (hmem m.1 m.2).mp hm
                cases h3e with
                | inl hq3 =>
                  apply hmodnotin
                  rw [show a.module = e.module from by rw [← hfm]; exact hq3.1]
                  exact List.mem_map.mpr ⟨e, he, rfl⟩
                | inr hq3 =>
                  exact slash_notin_append a.module e.module hsfa
                    (by rw [← hfm]; exact hq3.1)
              | inr hq2 => exact hma (List.mem_singleton.mp hq2)
          · intro hin
            cases List.mem_append.mp hin with
            | inl hq2 =>
              obtain ⟨m, hm, hfm⟩ := List.mem_map.mp hq2
              obtain ⟨e, he, h1e, h2e, h3e⟩ := (hmem m.1 m.2).mp hm
              cases h3e with
              | inl hq3 =>
                exact slash_notin_append e.module a.module (hsf' e he)
                  (by rw [← hq3.1, hfm])
              | inr hq3 =>
                apply hmodnotin
                have hq4 : a.module = e.module :=
                  append_sfx_inj _ _ (by rw [← hfm]; exact hq3.1)
                rw [hq4]
                exact List.mem_map.mpr ⟨e, he, rfl⟩
            | inr hq2 =>
              exact slash_notin_append pkg a.module hp (List.mem_singleton.mp hq2).symm
      · rw [show bindMountsE pkg (a :: rest) = .error (.configError a.staticDirs) from by
          simp [bindMountsE, hma, hsa, hla]] at h
        exact absurd h (by simp)

/-- C9: for contributions with pairwise distinct module names, none
equal to the package under build (module and package names are
slash-free, as Python module names are), the successful mount plan's
container paths — the package's self-binding included — are pairwise
unique. -/
theorem C9_theorem (pkg path : String) (entries : List Contribution)
    (plan : List MountBinding)
    (hok : mountPlan pkg path entries = .ok plan)
    (hnd : (entries.map Contribution.module).Nodup)
    (hne : ∀ e ∈ entries, e.module ≠ pkg)
    (hsf : ∀ e ∈ entries, '/' ∉ e.module.data)
    (hp : '/' ∉ pkg.data) :
    (plan.map MountBinding.containerPath).Nodup := by
  cases hb : bindMountsE pkg entries with
  | error err => simp [mountPlan, bindMounts, hb, Except.map] at hok
  | ok pr =>
    obtain ⟨ms, fx⟩ := pr
    have hplan : plan = ms.map (fun m => (⟨m.1, m.2, true⟩ : MountBinding)) ++
        [⟨pkg, path ++ "/src/" ++ pkg, false⟩] := by
      simp [mountPlan, bindMounts, hb, Except.map] at hok
      exact hok.symm
    subst hplan
    have hpaths : (ms.map (fun m => (⟨m.1, m.2, true⟩ : MountBinding)) ++
        [(⟨pkg, path ++ "/src/" ++ pkg, false⟩ : MountBinding)]).map
          MountBinding.containerPath = ms.map Prod.fst ++ [pkg] := by
      simp [List.map_append, List.map_map, Function.comp]
    rw [hpaths]
    exact bindMountsE_paths_nodup pkg entries ms fx hb hnd hne hsf hp

/-- C9 witness: two plugins and the package give five pairwise distinct
container paths. -/
theorem C9_witness :
    (([⟨"pluginA", "/pa/pluginA", true⟩,
       ⟨"pluginA/WebApp/static", "/host/a", true⟩,
       ⟨"pluginB", "/pb/pluginB", true⟩,
       ⟨"pluginB/WebApp/static", "/host/b", true⟩,
       ⟨"mypkg", "/repo/src/mypkg", false⟩] : List MountBinding).map
        MountBinding.containerPath).Nodup :=
  C9_theorem "mypkg" "/repo"
    [⟨"pluginA", "/pa/pluginA", ["/host/a"]⟩, ⟨"pluginB", "/pb/pluginB", ["/host/b"]⟩]
    _ (by decide) (by decide) (by decide) (by decide) (by decide)

/-- C5 counterexample: the singularity variant appends only the
`docker://`-prefixed image and the entrypoint — no argument of the
identity-flag form `-u=<uid>:<gid>` appears anywhere in its vector,
while the docker variant carries exactly one. -/
theorem C5_counterexample :
    singularityArgs "mypkg" "/repo" "/tmp/stage" [] =
      .ok ["run", "--writable", "--containall", "--bind=/tmp/stage:/opt",
           "--bind=/repo/src/mypkg:/opt/mypkg",
           "docker://diracgrid/dirac-distribution:latest", "/dirac-webapp-compile.py"] ∧
    (["run", "--writable", "--containall", "--bind=/tmp/stage:/opt",
      "--bind=/repo/src/mypkg:/opt/mypkg",
      "docker://diracgrid/dirac-distribution:latest",
      "/dirac-webapp-compile.py"].all fun a => !(isUserFlag a)) = true ∧
    (dockerArgs "mypkg" "/repo" 1000 1000 []).map (fun l => l.filter isUserFlag) =
      .ok ["-u=1000:1000"] := by
  decide

/-- C5 (amended): the docker variant's trailing arguments are
`-w=/tmp`, the identity flag `-u=<uid>:<gid>`, the image, and the
entrypoint; the singularity variant's trailing arguments are only the
`docker://`-prefixed image and the entrypoint; both vectors end with
the fixed entrypoint `/dirac-webapp-compile.py`. -/
theorem C5_theorem (pkg path tmpdir : String) (uid gid : Nat)
    (entries : List Contribution) (dargs sargs : List String)
    (hd : dockerArgs pkg path uid gid entries = .ok dargs)
    (hs : singularityArgs pkg path tmpdir entries = .ok sargs) :
    (∃ pre, dargs = pre ++ ["-w=/tmp", "-u=" ++ (toString uid ++ ":" ++ toString gid),
        dockerImage, compileEntrypoint]) ∧
    (∃ pre, sargs = pre ++ ["docker://" ++ dockerImage, compileEntrypoint]) ∧
    dargs.getLast? = some compileEntrypoint ∧
    sargs.getLast? = some compileEntrypoint := by
  cases hb : bindMountsE pkg entries with
  | error err =>
    simp [dockerArgs, dockerArgsE, hb, Except.map] at hd
  | ok pr =>
    obtain ⟨ms, fx⟩ := pr
    have hdd : dargs =
        (["run", "--rm"] ++ ms.map (fun m => dockerMountArg m.1 m.2)
          ++ ["-v=" ++ pkgMountBody pkg path]) ++
        ["-w=/tmp", "-u=" ++ (toString uid ++ ":" ++ toString gid),
         dockerImage, compileEntrypoint] := by
      simp [dockerArgs, dockerArgsE, hb, Except.map] at hd
      simp [← hd, List.append_assoc]
    have hss : sargs =
        (["run", "--writable", "--containall", "--bind=" ++ (tmpdir ++ ":/opt")]
          ++ ms.map (fun m => singularityMountArg m.1 m.2)
          ++ ["--bind=" ++ pkgMountBody pkg path]) ++
        ["docker://" ++ dockerImage, compileEntrypoint] := by
      simp [singularityArgs, singularityArgsE, hb, Except.map] at hs
      simp [← hs, List.append_assoc]
    refine ⟨⟨_, hdd⟩, ⟨_, hss⟩, ?_, ?_⟩
    · rw [hdd, show (["-w=/tmp", "-u=" ++ (toString uid ++ ":" ++ toString gid),
          dockerImage, compileEntrypoint] : List String) =
            ["-w=/tmp", "-u=" ++ (toString uid ++ ":" ++ toString gid),
             dockerImage] ++ [compileEntrypoint] from rfl,
        ← List.append_assoc, List.getLast?_concat]
    · rw [hss, show (["docker://" ++ dockerImage, compileEntrypoint] : List String) =
            ["docker://" ++ dockerImage] ++ [compileEntrypoint] from rfl,
        ← List.append_assoc, List.getLast?_concat]

/-- C5 witness: concrete argument vectors of both variants end with
the entrypoint. -/
theorem C5_witness :
    (["run", "--rm", "-v=/repo/src/mypkg:/opt/mypkg", "-w=/tmp", "-u=1000:1000",
      dockerImage, compileEntrypoint] : List String).getLast? = some compileEntrypoint ∧
    (["run", "--writable", "--containall", "--bind=/tmp/stage:/opt",
      "--bind=/repo/src/mypkg:/opt/mypkg", "docker://" ++ dockerImage,
      compileEntrypoint] : List String).getLast? = some compileEntrypoint := by
  have h := C5_theorem "mypkg" "/repo" "/tmp/stage" 1000 1000 []
      ["run", "--rm", "-v=/repo/src/mypkg:/opt/mypkg", "-w=/tmp", "-u=1000:1000",
       dockerImage, compileEntrypoint]
      ["run", "--writable", "--containall", "--bind=/tmp/stage:/opt",
       "--bind=/repo/src/mypkg:/opt/mypkg", "docker://" ++ dockerImage,
       compileEntrypoint]
      (by decide) (by decide)
  exact ⟨h.2.2.1, h.2.2.2⟩

/-- A docker `-v=` argument parses as its body does. -/
theorem bindOfArg_v (s : String) : bindOfArg ("-v=" ++ s) = parseBindBody s.data := by
  have h : ("-v=" ++ s).data = '-' :: 'v' :: '=' :: s.data := by
    rw [String.data_append]; rfl
  unfold bindOfArg
  rw [h]
  rfl

/-- A singularity `--bind=` argument parses as its body does. -/
theorem bindOfArg_bind (s : String) :
    bindOfArg ("--bind=" ++ s) = parseBindBody s.data := by
  have h : ("--bind=" ++ s).data = '-' :: '-' :: 'b' :: 'i' :: 'n' :: 'd' :: '=' :: s.data := by
    rw [String.data_append]; rfl
  unfold bindOfArg
  rw [h]
  rfl

/-- Docker's `-u=` identity flag is never a bind mount. -/
theorem bindOfArg_u (s : String) : bindOfArg ("-u=" ++ s) = none := by
  have h : ("-u=" ++ s).data = '-' :: 'u' :: '=' :: s.data := by
    rw [String.data_append]; rfl
  unfold bindOfArg
  rw [h]
  rfl

/-- Unfolding `filterMap` over a cons, phrased with `Option.toList`. -/
theorem filterMap_cons_toList {α β : Type} (f : α → Option β) (a : α) (l : List α) :
    (a :: l).filterMap f = (f a).toList ++ l.filterMap f := by
  cases h : f a <;> simp [List.filterMap_cons, h]

/-- Splitting walks past a colon-free chunk, accumulating it. -/
theorem splitColon_append (l : List Char) (h : ':' ∉ l) :
    ∀ rest acc, splitColon (l ++ rest) acc = splitColon rest (l.reverse ++ acc) := by
  induction l with
  | nil => intro rest acc; simp
  | cons c l' ih =>
    intro rest acc
    have hc : ¬(c = ':') := fun hq => h (hq ▸ List.mem_cons_self c l')
    have h' : ':' ∉ l' := fun hm => h (List.mem_cons_of_mem _ hm)
    simp only [List.cons_append, splitColon, hc, if_false]
    show splitColon (l' ++ rest) (c :: acc) = splitColon rest ((c :: l').reverse ++ acc)
    rw [ih h' rest (c :: acc)]
    simp [List.append_assoc]

/-- The singularity staging bind `--bind=<tmpdir>:/opt` parses to the
logical bind `(tmpdir, /opt, read-write)` whenever the staging path is
colon-free. -/
theorem bindOfArg_root (tmpdir : String) (h : ':' ∉ tmpdir.data) :
    bindOfArg ("--bind=" ++ (tmpdir ++ ":/opt")) = some (tmpdir, "/opt", false) := by
  rw [bindOfArg_bind, String.data_append]
  rw [show (":/opt" : String).data = ':' :: ['/', 'o', 'p', 't'] from rfl]
  unfold parseBindBody
  rw [splitColon_append tmpdir.data h (':' :: ['/', 'o', 'p', 't']) []]
  rw [show ∀ acc : List Char, splitColon (':' :: ['/', 'o', 'p', 't']) acc
      = acc.reverse :: [['/', 'o', 'p', 't']] from fun acc => rfl]
  simp only [List.append_nil, List.reverse_reverse]

/-- Both backends render a mount with the same `host:container:ro`
body, so the parsed logical bind agrees. -/
theorem bindOfArg_mountArg (nm p : String) :
    bindOfArg (singularityMountArg nm p) = bindOfArg (dockerMountArg nm p) := by
  simp only [dockerMountArg, singularityMountArg]
  rw [bindOfArg_v, bindOfArg_bind]

/-- A `filterMap` only depends on the function's values on the list. -/
theorem filterMap_ext {α β : Type} (l : List α) (f g : α → Option β)
    (h : ∀ a ∈ l, f a = g a) : l.filterMap f = l.filterMap g := by
  induction l with
  | nil => rfl
  | cons a l ih =>
    rw [filterMap_cons_toList, filterMap_cons_toList, h a (List.mem_cons_self a l),
      ih (fun x hx => h x (List.mem_cons_of_mem _ hx))]

/-- C2 counterexample: on the empty contribution set the two variants'
argument vectors denote different logical bind-mount sets — the
singularity vector carries the extra staging binding
`/tmp/stage ↦ /opt` that the docker vector does not. -/
theorem C2_counterexample :
    (dockerArgs "mypkg" "/repo" 1000 1000 []).map logicalBinds =
      .ok [("/repo/src/mypkg", "/opt/mypkg", false)] ∧
    (singularityArgs "mypkg" "/repo" "/tmp/stage" []).map logicalBinds =
      .ok [("/tmp/stage", "/opt", false), ("/repo/src/mypkg", "/opt/mypkg", false)] ∧
    (("/tmp/stage", "/opt", false) : String × String × Bool) ∉
      [(("/repo/src/mypkg" : String), ("/opt/mypkg" : String), false)] := by
  refine ⟨by decide, by decide, by decide⟩

/-- C2 (amended): for every mount plan, the logical bind mounts of the
singularity argument vector are exactly those of the docker argument
vector plus one extra binding — the scoped staging directory mounted
read-write at the container root mount-base `/opt`.  All other logical
binds (every contribution and the package's writable source tree)
agree in container path, host path, and access mode. -/
theorem C2_theorem (pkg path tmpdir : String) (uid gid : Nat)
    (entries : List Contribution) (dargs sargs : List String)
    (htmp : ':' ∉ tmpdir.data)
    (hd : dockerArgs pkg path uid gid entries = .ok dargs)
    (hs : singularityArgs pkg path tmpdir entries = .ok sargs) :
    logicalBinds sargs = (tmpdir, "/opt", false) :: logicalBinds dargs := by
  cases hb : bindMountsE pkg entries with
  | error err => simp [dockerArgs, dockerArgsE, hb, Except.map] at hd
  | ok pr =>
    obtain ⟨ms, fx⟩ := pr
    have hdd : dargs = ["run", "--rm"] ++ ms.map (fun m => dockerMountArg m.1 m.2)
        ++ ["-v=" ++ pkgMountBody pkg path, "-w=/tmp",
            "-u=" ++ (toString uid ++ ":" ++ toString gid), dockerImage,
            compileEntrypoint] := by
      simp [dockerArgs, dockerArgsE, hb, Except.map] at hd
      exact hd.symm
    have hss : sargs = ["run", "--writable", "--containall",
          "--bind=" ++ (tmpdir ++ ":/opt")]
        ++ ms.map (fun m => singularityMountArg m.1 m.2)
        ++ ["--bind=" ++ pkgMountBody pkg path, "docker://" ++ dockerImage,
            compileEntrypoint] := by
      simp [singularityArgs, singularityArgsE, hb, Except.map] at hs
      exact hs.symm
    subst hdd hss
    have e1 : bindOfArg "run" = none := rfl
    have e2 : bindOfArg "--rm" = none := rfl
    have e3 : bindOfArg "-w=/tmp" = none := rfl
    have e4 : bindOfArg "--writable" = none := rfl
    have e5 : bindOfArg "--containall" = none := rfl
    have e6 : bindOfArg dockerImage = none := rfl
    have e7 : bindOfArg compileEntrypoint = none := rfl
    have e8 : bindOfArg ("docker://" ++ dockerImage) = none := rfl
    have e9 := bindOfArg_root tmpdir htmp
    have e10 := bindOfArg_u (toString uid ++ ":" ++ toString gid)
    have e11 := bindOfArg_v (pkgMountBody pkg path)
    have e12 := bindOfArg_bind (pkgMountBody pkg path)
    have hmaps : List.filterMap bindOfArg (ms.map (fun m => singularityMountArg m.1 m.2)) =
        List.filterMap bindOfArg (ms.map (fun m => dockerMountArg m.1 m.2)) := by
      rw [List.filterMap_map, List.filterMap_map]
      exact filterMap_ext ms _ _ (fun a _ => by
        simp only [Function.comp]
        exact bindOfArg_mountArg a.1 a.2)
    unfold logicalBinds
    rw [List.filterMap_append, List.filterMap_append, List.filterMap_append,
      List.filterMap_append]
    rw [hmaps]
    rw [show List.filterMap bindOfArg ["run", "--rm"] = [] from by
      rw [filterMap_cons_toList, filterMap_cons_toList, e1, e2]; rfl]
    rw [show List.filterMap bindOfArg ["run", "--writable", "--containall",
        "--bind=" ++ (tmpdir ++ ":/opt")] = [(tmpdir, "/opt", false)] from by
      rw [filterMap_cons_toList, filterMap_cons_toList, filterMap_cons_toList,
        filterMap_cons_toList, e1, e4, e5, e9]; rfl]
    rw [show List.filterMap bindOfArg ["-v=" ++ pkgMountBody pkg path, "-w=/tmp",
        "-u=" ++ (toString uid ++ ":" ++ toString gid), dockerImage,
        compileEntrypoint] = (parseBindBody (pkgMountBody pkg path).data).toList from by
      rw [filterMap_cons_toList, filterMap_cons_toList, filterMap_cons_toList,
        filterMap_cons_toList, filterMap_cons_toList, e3, e10, e6, e7, e11]
      simp]
    rw [show List.filterMap bindOfArg ["--bind=" ++ pkgMountBody pkg path,
        "docker://" ++ dockerImage, compileEntrypoint] =
          (parseBindBody (pkgMountBody pkg path).data).toList from by
      rw [filterMap_cons_toList, filterMap_cons_toList, filterMap_cons_toList,
        e8, e7, e12]
      simp]
    simp

/-- C2 witness: a concrete plan with one contribution, where the two
variants' logical binds differ exactly by the staging binding. -/
theorem C2_witness :
    logicalBinds ["run", "--writable", "--containall", "--bind=/tmp/stage:/opt",
        "--bind=/pa/pluginA:/opt/pluginA:ro",
        "--bind=/host/a:/opt/pluginA/WebApp/static:ro",
        "--bind=/repo/src/mypkg:/opt/mypkg",
        "docker://diracgrid/dirac-distribution:latest", "/dirac-webapp-compile.py"] =
      ("/tmp/stage", "/opt", false) ::
        logicalBinds ["run", "--rm", "-v=/pa/pluginA:/opt/pluginA:ro",
          "-v=/host/a:/opt/pluginA/WebApp/static:ro",
          "-v=/repo/src/mypkg:/opt/mypkg", "-w=/tmp", "-u=1000:1000",
          "diracgrid/dirac-distribution:latest", "/dirac-webapp-compile.py"] :=
  C2_theorem "mypkg" "/repo" "/tmp/stage" 1000 1000
    [⟨"pluginA", "/pa/pluginA", ["/host/a"]⟩] _ _
    (by decide) (by decide) (by decide)

/-- C7: whenever `DIRAC_WEBAPP_NO_COMPILE` is present in the process
environment, `run` returns the skipped outcome with an empty effect
trace — no backend probing, no mount-plan construction, no directory
creation, no child process. -/
theorem C7_theorem (env : List String) (which : String → Option String)
    (packages : List String) (path tmpdir : String) (uid gid : Nat)
    (entries : List Contribution) (childExit : List String → Int)
    (h : skipFlag ∈ env) :
    run env which packages path tmpdir uid gid entries childExit = (.ok .skipped, []) := by
  simp [run, h]

/-- C7 witness: a concrete environment carrying the flag. -/
theorem C7_witness :
    run ["DIRAC_WEBAPP_NO_COMPILE"] (fun _ => some "/usr/bin/docker") ["mypkg"]
        "/repo" "/tmp/stage" 1000 1000 [] (fun _ => 1) = (.ok .skipped, []) :=
  C7_theorem _ _ _ _ _ _ _ _ _ (by decide)

/-- C8: without the skip flag, once a backend is selected and the
arguments synthesized, a zero child exit status yields success and a
non-zero status `c` yields `BuildStepFailedError` carrying `c`
verbatim. -/
theorem C8_theorem (env : List String) (which : String → Option String)
    (packages : List String) (path tmpdir : String) (uid gid : Nat)
    (entries : List Contribution) (childExit : List String → Int)
    (exe fullExe pkg : String) (args : List String) (fx : List Effect)
    (henv : skipFlag ∉ env)
    (hsel : selectBackend which = .ok (exe, fullExe))
    (hpkg : pkgName packages = .ok pkg)
    (hargs : backendArgsE exe pkg path tmpdir uid gid entries = .ok (args, fx)) :
    (childExit (fullExe :: (args ++ ["-D=/opt", "-n=" ++ pkg, "--py3-style"])) = 0 →
       (run env which packages path tmpdir uid gid entries childExit).1 = .ok .success) ∧
    (childExit (fullExe :: (args ++ ["-D=/opt", "-n=" ++ pkg, "--py3-style"])) ≠ 0 →
       (run env which packages path tmpdir uid gid entries childExit).1 =
         .error (.buildStepFailed
           (childExit (fullExe :: (args ++ ["-D=/opt", "-n=" ++ pkg, "--py3-style"]))))) := by
  constructor <;> intro h <;> simp [run, henv, hsel, hpkg, hargs] <;>
    first
      | rw [if_pos h]
      | rw [if_neg h]

/-- C8 witness: a child exiting 137 yields `BuildStepFailedError 137`. -/
theorem C8_witness :
    (run [] (fun e => if e = "docker" then some "/usr/bin/docker" else none)
        ["mypkg"] "/repo" "/tmp/stage" 1000 1000 [] (fun _ => 137)).1 =
      .error (.buildStepFailed 137) :=
  (C8_theorem [] (fun e => if e = "docker" then some "/usr/bin/docker" else none)
      ["mypkg"] "/repo" "/tmp/stage" 1000 1000 [] (fun _ => 137)
      "docker" "/usr/bin/docker" "mypkg"
      ["run", "--rm", "-v=/repo/src/mypkg:/opt/mypkg", "-w=/tmp", "-u=1000:1000",
       dockerImage, compileEntrypoint] []
      (by decide) (by decide) (by decide) (by decide)).2 (by decide)

/-- C4: backend selection tries `docker` first, then `singularity`,
returning the first executable `shutil.which` resolves; when neither
resolves it raises `NoBackendAvailableError` and `run` spawns nothing. -/
theorem C4_theorem (which : String → Option String) :
    (∀ full, which "docker" = some full →
        selectBackend which = .ok ("docker", full)) ∧
    (which "docker" = none → ∀ full, which "singularity" = some full →
        selectBackend which = .ok ("singularity", full)) ∧
    (which "docker" = none → which "singularity" = none →
      selectBackend which = .error (.noBackend "Unable to find a suitable command") ∧
      ∀ env packages path tmpdir uid gid entries childExit, skipFlag ∉ env →
        (run env which packages path tmpdir uid gid entries childExit).1 =
            .error (.noBackend "Unable to find a suitable command") ∧
        ∀ c, Effect.spawn c ∉ (run env which packages path tmpdir uid gid entries childExit).2) := by
  refine ⟨?_, ?_, ?_⟩
  · intro full h
    simp [selectBackend, availableExes, selectLoop, h]
  · intro hd full hs
    simp [selectBackend, availableExes, selectLoop, hd, hs]
  · intro hd hs
    have hsel : selectBackend which = .error (.noBackend "Unable to find a suitable command") := by
      simp [selectBackend, availableExes, selectLoop, hd, hs]
    refine ⟨hsel, ?_⟩
    intro env packages path tmpdir uid gid entries childExit henv
    have hrun : run env which packages path tmpdir uid gid entries childExit =
        (.error (.noBackend "Unable to find a suitable command"),
          probeLoop which availableExes) := by
      simp [run, henv, hsel]
    rw [hrun]
    refine ⟨rfl, ?_⟩
    intro c
    simp [probeLoop, availableExes, hd, hs]

/-- C4 witness: no backend on an empty search path; docker found first
when present; the error surfaces through `run`. -/
theorem C4_witness :
    selectBackend (fun _ => none) = .error (.noBackend "Unable to find a suitable command") ∧
    selectBackend (fun e => if e = "docker" then some "/usr/bin/docker" else none) =
      .ok ("docker", "/usr/bin/docker") ∧
    (run [] (fun _ => none) ["mypkg"] "/repo" "/t" 0 0 [] (fun _ => 0)).1 =
      .error (.noBackend "Unable to find a suitable command") := by
  refine ⟨((C4_theorem (fun _ => none)).2.2 rfl rfl).1, ?_, ?_⟩
  · exact (C4_theorem (fun e => if e = "docker" then some "/usr/bin/docker" else none)).1
      "/usr/bin/docker" rfl
  · exact (((C4_theorem (fun _ => none)).2.2 rfl rfl).2
      [] ["mypkg"] "/repo" "/t" 0 0 [] (fun _ => 0) (by decide)).1

/-- C10 counterexample: the cache never hits.  The first access stores
the resolved name under the mangled key, which the `hasattr` guard
never consults, so a second access recomputes from the distribution's
current (here: changed) package list and returns a different name —
refuting "computed once and reused unchanged for the rest of the
invocation". -/
theorem C10_counterexample :
    pkgNameCached [] ["mypkg"] = .ok ("mypkg", [(mangledNameAttr, "mypkg")]) ∧
    List.lookup "__name" [(mangledNameAttr, "mypkg")] = none ∧
    pkgNameCached [(mangledNameAttr, "mypkg")] ["other"] =
      .ok ("other", [(mangledNameAttr, "other"), (mangledNameAttr, "mypkg")]) ∧
    ("other" : String) ≠ "mypkg" := by
  decide

/-- C10 (amended): resolving the package name requires exactly one
top-level (dot-free) package — any other count raises an error
carrying the filtered candidate list, which `run` surfaces, while a
unique candidate resolves to it.  The attribute cache is dead code:
name mangling stores the result under `_build_extjs_sources__name`
while `hasattr(self, "__name")` checks a key that is never stored, so
every access recomputes the name from the distribution's current
package list — agreeing with a fresh resolution of that state — and
the cache-miss invariant is preserved by every access. -/
theorem C10_theorem (packages : List String) :
    ((topLevel packages).length ≠ 1 →
        pkgName packages = .error (.pkgNameError (topLevel packages)) ∧
        ∀ env which path tmpdir uid gid entries childExit exe fullExe,
          skipFlag ∉ env → selectBackend which = .ok (exe, fullExe) →
          (run env which packages path tmpdir uid gid entries childExit).1 =
            .error (.pkgNameError (topLevel packages))) ∧
    (∀ n, topLevel packages = [n] → pkgName packages = .ok n) ∧
    (∀ attrs, List.lookup "__name" attrs = none →
        (∀ n attrs2, pkgNameCached attrs packages = .ok (n, attrs2) →
            pkgName packages = .ok n ∧ List.lookup "__name" attrs2 = none) ∧
        (∀ err, pkgName packages = .error err →
            pkgNameCached attrs packages = .error err)) := by
  refine ⟨?_, ?_, ?_⟩
  · intro h
    have herr : pkgName packages = .error (.pkgNameError (topLevel packages)) := by
      simp [pkgName, h]
    refine ⟨herr, ?_⟩
    intro env which path tmpdir uid gid entries childExit exe fullExe henv hsel
    simp [run, henv, hsel, herr]
  · intro n hn
    simp [pkgName, hn]
  · intro attrs hmiss
    have hne : ("__name" == mangledNameAttr) = false := by decide
    have hself : (mangledNameAttr == mangledNameAttr) = true := by decide
    constructor
    · intro n attrs2 h
      cases hp : pkgName packages with
      | error err => simp [pkgNameCached, hmiss, hp] at h
      | ok m =>
        simp [pkgNameCached, hmiss, hp, List.lookup, hself] at h
        obtain ⟨rfl, rfl⟩ := h
        constructor
        · first
            | exact hp
            | rfl
        · simp [List.lookup, hne, hmiss]
    · intro err hp
      simp [pkgNameCached, hmiss, hp]

/-- C10 witness: two top-level candidates error with the candidate
list; a unique candidate resolves; an access with the stored (mangled)
attribute present still recomputes and leaves the guard's key absent. -/
theorem C10_witness :
    pkgName ["a.b", "x", "y"] = .error (.pkgNameError ["x", "y"]) ∧
    pkgName ["mypkg", "mypkg.sub"] = .ok "mypkg" ∧
    (pkgName ["mypkg"] = .ok "mypkg" ∧
      List.lookup "__name" [(mangledNameAttr, "mypkg")] = none) := by
  refine ⟨?_, ?_, ?_⟩
  · have h := ( C10_theorem ["a.b", "x", "y"]).1 (by decide)
    exact (by decide : topLevel ["a.b", "x", "y"] = ["x", "y"]) ▸ h.1
  · exact ( C10_theorem ["mypkg", "mypkg.sub"]).2.1 "mypkg" (by decide)
  · exact (( C10_theorem ["mypkg"]).2.2 [] rfl).1 "mypkg"
      [(mangledNameAttr, "mypkg")] (by decide)

end DiracWebappPackaging
